import Mathlib

set_option autoImplicit false

/-!
Verification development for the superteammy-guardian bot.

The JavaScript sources are shallowly embedded: a JS `Map` becomes an
insertion-ordered association list (`Map.set` on an existing key keeps its
position, `Map.delete` removes it, iteration follows insertion order),
`Date.now()` becomes an explicit `now : Int` argument threaded through each
call, and functions that can `throw` return `Except`.
-/

namespace Guardian

/-- `Map.get`: value of the first (only) binding of `k`, if any. -/
def mget {K V : Type} [DecidableEq K] (k : K) : List (K × V) → Option V
  | [] => none
  | p :: rest => if p.1 = k then some p.2 else mget k rest

/-- `Map.set`: overwrite in place when the key is present (JS `Map.set` keeps
the original insertion position), otherwise append at the end. -/
def mset {K V : Type} [DecidableEq K] (k : K) (v : V) : List (K × V) → List (K × V)
  | [] => [(k, v)]
  | p :: rest => if p.1 = k then (k, v) :: rest else p :: mset k v rest

/-- `Map.delete`: remove the first (only) binding of `k`. -/
def mdel {K V : Type} [DecidableEq K] (k : K) : List (K × V) → List (K × V)
  | [] => []
  | p :: rest => if p.1 = k then rest else p :: mdel k rest

/-- A `CooldownMap` entry, `src/CooldownMap.js`.  Timestamp mode stores the
raw `Date.now()` value; counter mode stores `{ count, firstAttempt }`. -/
inductive Entry : Type
  | ts (t : Int)
  | counter (count : Nat) (firstAttempt : Int)
  deriving DecidableEq

/-- The expiry anchor of an entry, as read by `_purge`:
`typeof val === 'object' ? val.firstAttempt : val`. -/
def Entry.anchor : Entry → Int
  | Entry.ts t => t
  | Entry.counter _ fa => fa

/-- State of a `CooldownMap` (`src/CooldownMap.js`).  The constructor's
`cleanupMultiplier` only schedules how often `_purge` runs on the event loop;
it does not affect the state transitions modelled here. -/
structure CooldownMap (K : Type) where
  map : List (K × Entry)
  windowMs : Int
  maxSize : Nat

/-- `isLimited(key)`: `ts != null && Date.now() - ts < this._windowMs`.
When the stored value is a counter object, `Date.now() - ts` is `NaN` in JS
and the comparison is false, so a counter entry is never "limited". -/
def CooldownMap.isLimited {K : Type} [DecidableEq K]
    (m : CooldownMap K) (k : K) (now : Int) : Bool :=
  match mget k m.map with
  | some (Entry.ts t) => decide (now - t < m.windowMs)
  | some (Entry.counter _ _) => false
  | none => false

/-- `touch(key)`: evict the oldest-inserted key when `maxSize` is configured
and the map is at (or beyond) capacity, then record `Date.now()` for `key`. -/
def CooldownMap.touch {K : Type} [DecidableEq K]
    (m : CooldownMap K) (k : K) (now : Int) : CooldownMap K :=
  let base :=
    if m.maxSize ≠ 0 ∧ m.maxSize ≤ m.map.length then
      match m.map with
      | [] => m.map
      | p :: _ => mdel p.1 m.map
    else m.map
  { m with map := mset k (Entry.ts now) base }

/-- `increment(key, max)`: reset to a fresh window `{count: 1, firstAttempt:
now}` when the entry is absent, is not a counter object, or its window has
expired (`now - entry.firstAttempt > windowMs`); otherwise bump the count and
report whether it now exceeds `max`.  Note: no capacity check is performed. -/
def CooldownMap.increment {K : Type} [DecidableEq K]
    (m : CooldownMap K) (k : K) (mx : Nat) (now : Int) : Bool × CooldownMap K :=
  match mget k m.map with
  | some (Entry.counter c fa) =>
      if m.windowMs < now - fa then
        (false, { m with map := mset k (Entry.counter 1 now) m.map })
      else
        (decide (mx < c + 1), { m with map := mset k (Entry.counter (c + 1) fa) m.map })
  | _ => (false, { m with map := mset k (Entry.counter 1 now) m.map })

/-- Count stored for `k`, or 0 when no counter entry is present. -/
def CooldownMap.countOf {K : Type} [DecidableEq K]
    (m : CooldownMap K) (k : K) : Nat :=
  match mget k m.map with
  | some (Entry.counter c _) => c
  | _ => 0

/-- `_purge()`: drop every entry whose anchor is strictly older than the
window (`now - ts > this._windowMs`). -/
def CooldownMap.purge {K : Type} (m : CooldownMap K) (now : Int) : CooldownMap K :=
  { m with map := m.map.filter fun p => decide (now - p.2.anchor ≤ m.windowMs) }

/-- Run `increment k mx` once per timestamp in `times`, collecting the
returned booleans in call order. -/
def CooldownMap.incrementTimes {K : Type} [DecidableEq K]
    (m : CooldownMap K) (k : K) (mx : Nat) : List Int → List Bool × CooldownMap K
  | [] => ([], m)
  | t :: rest =>
      let r := m.increment k mx t
      let rr := r.2.incrementTimes k mx rest
      (r.1 :: rr.1, rr.2)

/-- Booleans returned by `n` consecutive in-window `increment` calls that
start from a stored count of `c`: the `i`-th call reports `mx < c + i`. -/
def expectedResults (mx : Nat) : Nat → Nat → List Bool
  | _, 0 => []
  | c, n + 1 => decide (mx < c + 1) :: expectedResults mx (c + 1) n

/-! ## IntroValidator — `src/handlers/intro.js` and `src/config.js`

JS strings are embedded as `List Char`; `String.prototype.includes` becomes
`hasSubChars` and `toLowerCase` maps `Char.toLower` over the text. -/

def INTRO_MIN_LENGTH : Nat := 50

def INTRO_MAX_LENGTH : Nat := 4000

def INTRO_KEYWORD_BYPASS_LENGTH : Nat := 150

def INTRO_KEYWORDS : List (List Char) :=
  [ "who are you".toList
  , "what do you do".toList
  , "where are you based".toList
  , "fun fact".toList
  , "contribute".toList ]

def lowerChars (s : List Char) : List Char := s.map Char.toLower

/-- Does `hay` start with `needle`? -/
def startsWithChars : List Char → List Char → Bool
  | [], _ => true
  | _ :: _, [] => false
  | a :: as, b :: bs => a == b && startsWithChars as bs

/-- `hay.includes(needle)`: does `needle` occur as a contiguous substring? -/
def hasSubChars : List Char → List Char → Bool
  | hay, needle =>
      if startsWithChars needle hay then true
      else
        match hay with
        | [] => false
        | _ :: t => hasSubChars t needle

/-- `isValidIntro(text)`: length window check, then at least two
case-insensitive keyword matches or the length bypass. -/
def isValidIntro (text : List Char) : Bool :=
  if text.length < INTRO_MIN_LENGTH then false
  else if INTRO_MAX_LENGTH < text.length then false
  else
    let lower := lowerChars text
    let matched := INTRO_KEYWORDS.filter fun kw => hasSubChars lower (lowerChars kw)
    decide (2 ≤ matched.length) || decide (INTRO_KEYWORD_BYPASS_LENGTH ≤ text.length)

/-- Number of distinct configured keywords matching `text`, each counted once
(`INTRO_KEYWORDS.filter(...)` keeps one slot per keyword). -/
def matchedKeywordCount (text : List Char) : Nat :=
  (INTRO_KEYWORDS.filter fun kw => hasSubChars (lowerChars text) (lowerChars kw)).length

/-! ## AdminStatusCache — `src/adminCache.js`

The cache key `"chatId:userId"` is embedded as the pair `(chatId, userId)`
(the JS template string is injective on integer pairs).  The Telegram call
`telegram.getChatMember` is the injected resolver; it returns the member's
status string, or fails (`none`).  The third component of the result records
whether the resolver was invoked. -/

def ADMIN_CACHE_MS : Int := 5 * 60 * 1000

def ADMIN_CACHE_MAX : Nat := 10000

/-- Cached value: `{ isAdmin, expires }`. -/
structure AdminEntry where
  isAdmin : Bool
  expires : Int
  deriving DecidableEq

abbrev AdminCacheT := List ((Int × Int) × AdminEntry)

/-- `member.status === 'creator' || member.status === 'administrator'`. -/
def classifyStatus (s : List Char) : Bool :=
  s == "creator".toList || s == "administrator".toList

/-- A JS number argument: either an integer (`Number.isInteger` true) or
anything else (float, string, `undefined`, ...). -/
inductive JsNum : Type
  | int (n : Int)
  | nonInt
  deriving DecidableEq

/-- Miss path of `isAdmin`: the `try { ... } catch { return false }` block.
On success, evict the oldest-inserted entry when at capacity, cache the
classified result for `ADMIN_CACHE_MS`, and return it; on failure return
`false` without touching the cache. -/
def resolveAndCache (resolver : Int → Int → Option (List Char))
    (cache : AdminCacheT) (c u : Int) (now : Int) : Bool × AdminCacheT × Bool :=
  match resolver c u with
  | none => (false, cache, true)
  | some status =>
      let result := classifyStatus status
      let cache2 :=
        if ADMIN_CACHE_MAX ≤ cache.length then
          match cache with
          | [] => cache
          | p :: _ => mdel p.1 cache
        else cache
      (result, mset (c, u) (AdminEntry.mk result (now + ADMIN_CACHE_MS)) cache2, true)

/-- `isAdmin(telegram, chatId, userId)`: non-integer inputs short-circuit to
`false`; an unexpired cached entry is returned as-is; otherwise the resolver
is consulted via `resolveAndCache`. -/
def isAdmin (resolver : Int → Int → Option (List Char)) (cache : AdminCacheT)
    (chatId userId : JsNum) (now : Int) : Bool × AdminCacheT × Bool :=
  match chatId, userId with
  | JsNum.int c, JsNum.int u =>
      match mget (c, u) cache with
      | some e =>
          if now < e.expires then (e.isAdmin, cache, false)
          else resolveAndCache resolver cache c u now
      | none => resolveAndCache resolver cache c u now
  | _, _ => (false, cache, false)

/-! ## Persistent store — `src/db.js`

The `users` table is a list of rows (`user_id` is the primary key, so at
most one row per id); the `settings` table is a key/value association list.
Operations that `throw` in JS return `Except`; SQL `datetime('now')` is the
explicit `now` argument. -/

/-- A row of the `users` table. -/
structure UserRow where
  user_id : Int
  username : Option (List Char)
  first_name : Option (List Char)
  introduced : Bool
  introduced_at : Option Int
  joined_at : Int
  intro_msg_id : Option Int
  updated_at : Int
  deriving DecidableEq

abbrev UsersTable := List UserRow

abbrev SettingsTable := List (List Char × List Char)

def VALID_SETTING_KEYS : List (List Char) :=
  [ "MAIN_GROUP_ID".toList, "INTRO_CHANNEL_ID".toList ]

/-- `SELECT value FROM settings WHERE key = ?`, then `row ? row.value : null`.
No key validation is performed, so the operation never fails. -/
def getSetting (s : SettingsTable) (key : List Char) :
    Except (List Char) (Option (List Char)) :=
  Except.ok (mget key s)

/-- `setSetting(key, value)`: reject keys outside `VALID_SETTING_KEYS`, else
`INSERT ... ON CONFLICT(key) DO UPDATE`. -/
def setSetting (s : SettingsTable) (key value : List Char) :
    Except (List Char) SettingsTable :=
  if VALID_SETTING_KEYS.contains key then Except.ok (mset key value s)
  else Except.error ("Invalid setting key: ".toList ++ key)

/-- `SELECT * FROM users WHERE user_id = ?` (no validation; helper). -/
def getUserRow (d : UsersTable) (uid : Int) : Option UserRow :=
  d.find? fun r => decide (r.user_id = uid)

/-- `getUser(userId)` with `assertSafeInteger` (the integrality half of the
JS check is carried by the `Int` input type). -/
def getUser (d : UsersTable) (uid : Int) : Except (List Char) (Option UserRow) :=
  if uid ≤ 0 then Except.error ("Invalid userId".toList)
  else Except.ok (getUserRow d uid)

/-- `username ? String(username).slice(0, n) : null` — the empty string is
falsy in JS and becomes `null`. -/
def truncOpt (n : Nat) : Option (List Char) → Option (List Char)
  | some cs => if cs = [] then none else some (cs.take n)
  | none => none

/-- `upsertUser(userId, username, firstName)`: insert a fresh row with the
SQL column defaults, or update only `username`, `first_name`, `updated_at`
on conflict. -/
def upsertUser (d : UsersTable) (uid : Int)
    (username firstName : Option (List Char)) (now : Int) :
    Except (List Char) UsersTable :=
  if uid ≤ 0 then Except.error ("Invalid userId".toList)
  else
    let su := truncOpt 64 username
    let sf := truncOpt 128 firstName
    if (getUserRow d uid).isSome then
      Except.ok (d.map fun r =>
        if r.user_id = uid then
          { r with username := su, first_name := sf, updated_at := now }
        else r)
    else
      Except.ok (d ++ [ { user_id := uid, username := su, first_name := sf
                        , introduced := false, introduced_at := none
                        , joined_at := now, intro_msg_id := none
                        , updated_at := now } ])

/-! ## Gatekeeper message handler — `src/handlers/gatekeeper.js`
(`src/unnamed/part_004`, lines 13–38)

The handler's observable effect per message event.  `db.getUser` is the
injected `lookupUser`; the admin check (`adminCache.isAdmin` against the
main group) is the injected `admin` oracle; the reminder `CooldownMap`
(timestamp mode, `REMINDER_COOLDOWN_MS`) is threaded through. -/

/-- Sender of a message (`ctx.from`). -/
structure Sender where
  id : Int
  isBot : Bool
  deriving DecidableEq

/-- A message event as seen by the gatekeeper (`ctx.chat.id`, `ctx.from`). -/
structure MsgCtx where
  chatId : Int
  sender : Option Sender

/-- Gatekeeper outcome: defer to the next handler untouched, delete the
message silently (reminder cooldown active), or delete it and send the
auto-deleting reminder. -/
inductive GkResult : Type
  | passNext
  | deleteSilent
  | deleteRemind
  deriving DecidableEq

/-- The `bot.on('message', ...)` handler of the gatekeeper. -/
def gatekeep (mainGroupId : Option Int) (admin : Int → Int → Bool)
    (lookupUser : Int → Option UserRow) (cd : CooldownMap Int)
    (ctx : MsgCtx) (now : Int) : GkResult × CooldownMap Int :=
  match mainGroupId with
  | none => (GkResult.passNext, cd)
  | some g =>
      if ctx.chatId ≠ g then (GkResult.passNext, cd)
      else
        match ctx.sender with
        | none => (GkResult.passNext, cd)
        | some s =>
            if s.isBot then (GkResult.passNext, cd)
            else if admin g s.id then (GkResult.passNext, cd)
            else
              match lookupUser s.id with
              | none => (GkResult.passNext, cd)
              | some u =>
                  if u.introduced then (GkResult.passNext, cd)
                  else if cd.isLimited s.id now then (GkResult.deleteSilent, cd)
                  else (GkResult.deleteRemind, cd.touch s.id now)

/-! ## Welcome handler — `src/handlers/welcome.js` -/

def MAX_NEW_MEMBERS_PER_EVENT : Nat := 10

/-- A member of a `new_chat_members` event. -/
structure Member where
  id : Int
  username : Option (List Char)
  first_name : Option (List Char)
  is_bot : Bool
  deriving DecidableEq

/-- Per-member loop body of the join handler: skip machine accounts entirely,
record the `db.upsertUser(member.id, member.username, member.first_name)`
call for everyone else, and send a welcome only when this is not a mass join
and the per-space welcome limiter is not active (touching it when sending).
Returns the recorded upsert calls, the number of welcome replies, and the
final limiter state. -/
def welcomeLoop (isMass : Bool) (chatId : Int) (now : Int) :
    List Member → CooldownMap Int →
    List (Int × Option (List Char) × Option (List Char)) × Nat × CooldownMap Int
  | [], cd => ([], 0, cd)
  | m :: rest, cd =>
      if m.is_bot then welcomeLoop isMass chatId now rest cd
      else
        let step : Nat × CooldownMap Int :=
          if isMass then (0, cd)
          else if cd.isLimited chatId now then (0, cd)
          else (1, cd.touch chatId now)
        let rr := welcomeLoop isMass chatId now rest step.2
        ((m.id, m.username, m.first_name) :: rr.1, step.1 + rr.2.1, rr.2.2)

/-- The `bot.on('new_chat_members', ...)` handler. -/
def welcomeJoin (mainGroupId : Option Int) (chatId : Int)
    (members : List Member) (cd : CooldownMap Int) (now : Int) :
    List (Int × Option (List Char) × Option (List Char)) × Nat × CooldownMap Int :=
  match mainGroupId with
  | none => ([], 0, cd)
  | some g =>
      if chatId ≠ g then ([], 0, cd)
      else welcomeLoop (decide (MAX_NEW_MEMBERS_PER_EVENT < members.length)) chatId now members cd

/-- Upsert call recorded for a joining member:
`db.upsertUser(member.id, member.username, member.first_name)`. -/
def upsertCallOf (m : Member) : Int × Option (List Char) × Option (List Char) :=
  (m.id, m.username, m.first_name)

/-- `!member.is_bot`: the members that get a user record. -/
def isHuman (m : Member) : Bool := !m.is_bot

/-! ## Concrete fixtures used by witness instantiations -/

/-- A store with no user records. -/
def noUserStore : Int → Option UserRow := fun _ => none

/-- A user row with `introduced = true`. -/
def introducedRow : UserRow := ⟨5, none, none, true, some 1, 0, some 9, 0⟩

/-- A user row with `introduced = false`. -/
def pendingRow : UserRow := ⟨5, none, none, false, none, 0, none, 0⟩

/-- A store answering every lookup with `introducedRow`. -/
def introStore : Int → Option UserRow := fun _ => some introducedRow

/-- A store answering every lookup with `pendingRow`. -/
def pendingStore : Int → Option UserRow := fun _ => some pendingRow

/-- An admin oracle that recognises exactly user id 2. -/
def adminOnly2 : Int → Int → Bool := fun _ uid => decide (uid = 2)

/-- A resolver whose calls always fail. -/
def failingResolver : Int → Int → Option (List Char) := fun _ _ => none

/-- A resolver that always reports the `creator` status. -/
def creatorResolver : Int → Int → Option (List Char) := fun _ _ => some ("creator".toList)

/-- A human (non-bot) member fixture. -/
def sampleMember : Member := ⟨42, none, none, false⟩

/-! ## Association-list lemmas -/

theorem mget_mset_self {K V : Type} [DecidableEq K] (k : K) (v : V) :
    ∀ l : List (K × V), mget k (mset k v l) = some v := by
  intro l
  induction l with
  | nil => simp [mget, mset]
  | cons p rest ih =>
      by_cases h : p.1 = k
      · simp [mset, mget, h]
      · simp [mset, mget, h, ih]

theorem mset_of_mget_none {K V : Type} [DecidableEq K] (k : K) (v : V) :
    ∀ l : List (K × V), mget k l = none → mset k v l = l ++ [(k, v)] := by
  intro l
  induction l with
  | nil => intro _; simp [mset]
  | cons p rest ih =>
      intro h
      by_cases hp : p.1 = k
      · simp [mget, hp] at h
      · simp [mget, hp] at h
        simp [mset, hp, ih h]

theorem mget_append_of_none {K V : Type} [DecidableEq K] (k : K) :
    ∀ l₁ l₂ : List (K × V), mget k l₁ = none → mget k (l₁ ++ l₂) = mget k l₂ := by
  intro l₁ l₂
  induction l₁ with
  | nil => simp [mget]
  | cons p rest ih =>
      intro h
      by_cases hp : p.1 = k
      · simp [mget, hp] at h
      · simp [mget, hp] at h ⊢
        exact ih h

theorem mdel_cons_self {K V : Type} [DecidableEq K] (p : K × V) (tl : List (K × V)) :
    mdel p.1 (p :: tl) = tl := by
  simp [mdel]

theorem length_mset_le {K V : Type} [DecidableEq K] (k : K) (v : V) :
    ∀ l : List (K × V), (mset k v l).length ≤ l.length + 1 := by
  intro l
  induction l with
  | nil => simp [mset]
  | cons p rest ih =>
      by_cases hp : p.1 = k
      · simp [mset, hp]
      · simp only [mset, hp, if_false, List.length_cons]
        omega

theorem touch_isLimited_eq {K : Type} [DecidableEq K]
    (m : CooldownMap K) (k : K) (t t2 : Int) :
    (m.touch k t).isLimited k t2 = decide (t2 - t < m.windowMs) := by
  simp [CooldownMap.touch, CooldownMap.isLimited, mget_mset_self]

/-- C5 (purge), stated for each entry a `CooldownMap` can hold. -/
theorem purge_mem_iff {K : Type} (m : CooldownMap K) (now : Int) (k : K) (v : Entry) :
    (k, v) ∈ (m.purge now).map ↔ ((k, v) ∈ m.map ∧ now - v.anchor ≤ m.windowMs) := by
  simp [CooldownMap.purge, List.mem_filter]

/-- C7: on a timestamp-mode `CooldownMap` with positive window, a key is
limited immediately after `touch`, is limited at a later instant exactly when
less than the window has elapsed since the touch, and an absent key is never
limited.  (`isLimited` reads the map through `mget` only, so it mutates no
cache state by construction.) -/
theorem claim7_touch_isLimited {K : Type} [DecidableEq K]
    (m : CooldownMap K) (k : K) (t t2 : Int) (hw : 0 < m.windowMs) :
    (m.touch k t).isLimited k t = true
    ∧ ((m.touch k t).isLimited k t2 = decide (t2 - t < m.windowMs))
    ∧ (mget k m.map = none → m.isLimited k t2 = false) := by
  refine ⟨?_, touch_isLimited_eq m k t t2, ?_⟩
  · rw [touch_isLimited_eq]
    simp only [decide_eq_true_eq]
    omega
  · intro h
    simp [CooldownMap.isLimited, h]

theorem claim7_touch_isLimited_witness :
    ((⟨[], 5, 0⟩ : CooldownMap Int).touch 3 10).isLimited 3 10 = true
    ∧ (((⟨[], 5, 0⟩ : CooldownMap Int).touch 3 10).isLimited 3 100 =
        decide ((100 : Int) - 10 < (⟨[], 5, 0⟩ : CooldownMap Int).windowMs))
    ∧ (mget 3 (⟨[], 5, 0⟩ : CooldownMap Int).map = none →
        (⟨[], 5, 0⟩ : CooldownMap Int).isLimited 3 100 = false) :=
  claim7_touch_isLimited (⟨[], 5, 0⟩ : CooldownMap Int) 3 10 100 (by decide)

/-- C5: `_purge` removes exactly the entries whose anchor — the stored
timestamp for a timestamp-mode entry, the `firstAttempt` field for a
counter-mode entry — is more than `windowMs` in the past, and keeps every
entry still within the window. -/
theorem claim5_purge_anchor {K : Type} (m : CooldownMap K) (now : Int) (k : K)
    (t : Int) (c : Nat) (fa : Int) :
    ((k, Entry.ts t) ∈ (m.purge now).map ↔
      ((k, Entry.ts t) ∈ m.map ∧ now - t ≤ m.windowMs))
    ∧ ((k, Entry.counter c fa) ∈ (m.purge now).map ↔
      ((k, Entry.counter c fa) ∈ m.map ∧ now - fa ≤ m.windowMs)) :=
  ⟨purge_mem_iff m now k (Entry.ts t), purge_mem_iff m now k (Entry.counter c fa)⟩

/-- C3: `isValidIntro` accepts exactly the texts inside the length window
that match at least two keywords or reach the bypass length; length 49 is
always rejected, and length 4001 is rejected regardless of keywords. -/
theorem claim3_isValidIntro (text : List Char) :
    (isValidIntro text = true ↔
      (INTRO_MIN_LENGTH ≤ text.length ∧ text.length ≤ INTRO_MAX_LENGTH ∧
        (2 ≤ matchedKeywordCount text ∨ INTRO_KEYWORD_BYPASS_LENGTH ≤ text.length)))
    ∧ (text.length = 49 → isValidIntro text = false)
    ∧ (text.length = 4001 → isValidIntro text = false) := by
  refine ⟨?_, ?_, ?_⟩
  · unfold isValidIntro matchedKeywordCount
    by_cases h1 : text.length < INTRO_MIN_LENGTH
    · simp only [h1, if_true]
      unfold INTRO_MIN_LENGTH at h1 ⊢
      simp only [Bool.false_eq_true, false_iff]
      omega
    · by_cases h2 : INTRO_MAX_LENGTH < text.length
      · simp only [h1, if_false, h2, if_true]
        unfold INTRO_MAX_LENGTH at h2 ⊢
        simp only [Bool.false_eq_true, false_iff]
        omega
      · simp only [h1, if_false, h2, Bool.or_eq_true, decide_eq_true_eq]
        unfold INTRO_MIN_LENGTH at h1
        unfold INTRO_MAX_LENGTH at h2
        unfold INTRO_MIN_LENGTH INTRO_MAX_LENGTH
        omega
  · intro h
    unfold isValidIntro
    have : text.length < INTRO_MIN_LENGTH := by
      unfold INTRO_MIN_LENGTH; omega
    simp [this]
  · intro h
    unfold isValidIntro
    have h1 : ¬ text.length < INTRO_MIN_LENGTH := by
      unfold INTRO_MIN_LENGTH; omega
    have h2 : INTRO_MAX_LENGTH < text.length := by
      unfold INTRO_MAX_LENGTH; omega
    simp [h1, h2]

theorem claim3_isValidIntro_witness :
    isValidIntro (List.replicate 49 ('a' : Char)) = false :=
  (claim3_isValidIntro (List.replicate 49 'a')).2.1 (by simp)

/-- In-window runs of `increment` starting from a stored count `c` report
`mx < c + i` at the `i`-th call and leave the window anchor untouched. -/
theorem incrementTimes_counter {K : Type} [DecidableEq K] (k : K) (mx : Nat) :
    ∀ (times : List Int) (m : CooldownMap K) (c : Nat) (fa : Int),
      mget k m.map = some (Entry.counter c fa) →
      (∀ t ∈ times, t - fa ≤ m.windowMs) →
      (m.incrementTimes k mx times).1 = expectedResults mx c times.length
      ∧ mget k (m.incrementTimes k mx times).2.map
          = some (Entry.counter (c + times.length) fa)
      ∧ (m.incrementTimes k mx times).2.windowMs = m.windowMs := by
  intro times
  induction times with
  | nil =>
      intro m c fa h _
      simp [CooldownMap.incrementTimes, expectedResults, h]
  | cons t rest ih =>
      intro m c fa h hin
      have hnot : ¬ (m.windowMs < t - fa) := by
        have := hin t (by simp)
        omega
      have hstep : m.increment k mx t =
          (decide (mx < c + 1), { m with map := mset k (Entry.counter (c + 1) fa) m.map }) := by
        simp [CooldownMap.increment, h, hnot]
      have hget : mget k (mset k (Entry.counter (c + 1) fa) m.map)
          = some (Entry.counter (c + 1) fa) := mget_mset_self k _ m.map
      have hrest : ∀ t2 ∈ rest, t2 - fa ≤
          ({ m with map := mset k (Entry.counter (c + 1) fa) m.map } : CooldownMap K).windowMs := by
        intro t2 ht2
        exact hin t2 (by simp [ht2])
      obtain ⟨ih1, ih2, ih3⟩ :=
        ih { m with map := mset k (Entry.counter (c + 1) fa) m.map } (c + 1) fa hget hrest
      refine ⟨?_, ?_, ?_⟩
      · simp only [CooldownMap.incrementTimes, hstep, ih1, List.length_cons, expectedResults]
      · simp only [CooldownMap.incrementTimes, hstep, ih2, List.length_cons]
        have : c + 1 + rest.length = c + (rest.length + 1) := by omega
        rw [this]
      · simp only [CooldownMap.incrementTimes, hstep, ih3]

/-- `expectedResults mx c n` is `false` until the count passes `mx`, then
`true`: for a run that ends exactly one past the limit it is
`replicate (mx - c) false ++ [true]`. -/
theorem expectedResults_replicate (mx : Nat) :
    ∀ (n c : Nat), c + n = mx + 1 → c ≤ mx →
      expectedResults mx c n = List.replicate (mx - c) false ++ [true] := by
  intro n
  induction n with
  | zero => intro c h hc; omega
  | succ n ih =>
      intro c h hc
      by_cases hcm : c = mx
      · subst hcm
        have hn : n = 0 := by omega
        subst hn
        simp [expectedResults, Nat.lt_succ_self]
      · have hfalse : decide (mx < c + 1) = false := by
          simp only [decide_eq_false_iff_not]
          omega
        simp only [expectedResults, hfalse]
        rw [ih (c + 1) (by omega) (by omega)]
        have hrw : mx - c = (mx - (c + 1)) + 1 := by omega
        rw [hrw, List.replicate_succ]
        simp

/-- C1 (amended to `max ≥ 1`): starting from an empty counter-mode map with
window `w`, a first call at `t0` followed by `max` further calls all within
`w` of `t0` returns `false` for the first `max` calls and `true` for the
`(max+1)`-th; once more than `w` has elapsed since `t0`, the next call starts
a fresh window with count 1 and returns `false`.  Moreover, for `max ≥ 1`,
any single call returns `true` exactly when the count recorded for the key
after the call exceeds `max`. -/
theorem claim1_increment_window {K : Type} [DecidableEq K]
    (w : Int) (k : K) (mx : Nat) (t0 now : Int) (rest : List Int)
    (m : CooldownMap K) (t : Int)
    (hmx : 1 ≤ mx) (hin : ∀ t2 ∈ rest, t2 - t0 ≤ w)
    (hlen : rest.length = mx) (hexp : w < now - t0) :
    ((CooldownMap.mk ([] : List (K × Entry)) w 0).incrementTimes k mx (t0 :: rest)).1
        = List.replicate mx false ++ [true]
    ∧ ((((CooldownMap.mk ([] : List (K × Entry)) w 0).incrementTimes k mx
          (t0 :: rest)).2.increment k mx now).1 = false)
    ∧ (mget k (((CooldownMap.mk ([] : List (K × Entry)) w 0).incrementTimes k mx
          (t0 :: rest)).2.increment k mx now).2.map = some (Entry.counter 1 now))
    ∧ ((m.increment k mx t).1 = true ↔ mx < (m.increment k mx t).2.countOf k) := by
  have hstep0 : (CooldownMap.mk ([] : List (K × Entry)) w 0).increment k mx t0 =
      (false, CooldownMap.mk [(k, Entry.counter 1 t0)] w 0) := by
    simp [CooldownMap.increment, mget, mset]
  have hget1 : mget k ([(k, Entry.counter 1 t0)] : List (K × Entry))
      = some (Entry.counter 1 t0) := by
    simp [mget]
  obtain ⟨h1, h2, h3⟩ := incrementTimes_counter k mx rest
    (CooldownMap.mk [(k, Entry.counter 1 t0)] w 0) 1 t0 hget1 hin
  have hrun : ((CooldownMap.mk ([] : List (K × Entry)) w 0).incrementTimes k mx (t0 :: rest))
      = (false :: ((CooldownMap.mk [(k, Entry.counter 1 t0)] w 0).incrementTimes k mx rest).1,
         ((CooldownMap.mk [(k, Entry.counter 1 t0)] w 0).incrementTimes k mx rest).2) := by
    simp only [CooldownMap.incrementTimes, hstep0]
  refine ⟨?_, ?_, ?_, ?_⟩
  · rw [hrun]
    simp only [h1, hlen]
    rw [expectedResults_replicate mx mx 1 (by omega) hmx]
    have hrw : mx = (mx - 1) + 1 := by omega
    rw [hrw, List.replicate_succ]
    simp
  · rw [hrun]
    simp only [CooldownMap.increment, h2, h3]
    simp [hexp]
  · rw [hrun]
    simp only [CooldownMap.increment, h2, h3]
    simp only [hexp, if_true]
    exact mget_mset_self k _ _
  · rcases hm : mget k m.map with _ | v
    · simp [CooldownMap.increment, hm, CooldownMap.countOf, mget_mset_self]
      omega
    · rcases v with t1 | ⟨c, fa⟩
      · simp [CooldownMap.increment, hm, CooldownMap.countOf, mget_mset_self]
        omega
      · by_cases hw2 : m.windowMs < t - fa
        · simp [CooldownMap.increment, hm, hw2, CooldownMap.countOf, mget_mset_self]
          omega
        · simp [CooldownMap.increment, hm, hw2, CooldownMap.countOf, mget_mset_self]

/-- Witness for C1 at `w = 1000`, `max = 2`, calls at `0, 1, 2`, reset call
at `2000`, and the iff checked on a map holding count 3 in-window. -/
theorem claim1_increment_window_witness :
    ((CooldownMap.mk ([] : List (Int × Entry)) 1000 0).incrementTimes 7 2 (0 :: [1, 2])).1
        = List.replicate 2 false ++ [true]
    ∧ ((((CooldownMap.mk ([] : List (Int × Entry)) 1000 0).incrementTimes 7 2
          (0 :: [1, 2])).2.increment 7 2 2000).1 = false)
    ∧ (mget 7 (((CooldownMap.mk ([] : List (Int × Entry)) 1000 0).incrementTimes 7 2
          (0 :: [1, 2])).2.increment 7 2 2000).2.map = some (Entry.counter 1 2000))
    ∧ (((CooldownMap.mk [((7 : Int), Entry.counter 3 0)] 1000 0).increment 7 2 10).1 = true ↔
        2 < ((CooldownMap.mk [((7 : Int), Entry.counter 3 0)] 1000 0).increment 7 2 10).2.countOf 7) :=
  claim1_increment_window 1000 7 2 0 2000 [1, 2]
    (CooldownMap.mk [((7 : Int), Entry.counter 3 0)] 1000 0) 10
    (by decide) (by decide) (by decide) (by decide)

/-- C1 counterexample for `max = 0`: the first call of a fresh window returns
`false` even though the recorded count (1) already exceeds `max`, refuting
the claimed iff for every `max`. -/
theorem claim1_increment_window_cex :
    ((CooldownMap.mk ([] : List (Int × Entry)) 1000 0).increment 7 0 5).1 = false
    ∧ ((CooldownMap.mk ([] : List (Int × Entry)) 1000 0).increment 7 0 5).2.countOf 7 = 1
    ∧ 0 < 1 := by
  refine ⟨?_, ?_, ?_⟩ <;> decide

/-- C2 (amended): the capacity bound is enforced by `touch` alone.  Touching
a key not in a map that is exactly at capacity drops the least-recently-
inserted binding (the head of the insertion-ordered list) and appends the new
key, so the size stays at `maxSize` and the evicted key is gone; and `touch`
preserves the bound `size ≤ maxSize` from any state.  (`increment` performs
no capacity check — see the counterexample.) -/
theorem claim2_touch_eviction {K : Type} [DecidableEq K]
    (m : CooldownMap K) (k k0 : K) (v0 : Entry) (rest : List (K × Entry)) (now : Int)
    (m2 : CooldownMap K) (k2 : K) (t : Int)
    (hshape : m.map = (k0, v0) :: rest) (hfull : m.map.length = m.maxSize)
    (hmax : m.maxSize ≠ 0) (hnew : mget k m.map = none) (hnodup : mget k0 rest = none)
    (hb0 : m2.maxSize ≠ 0) (hble : m2.map.length ≤ m2.maxSize) :
    (m.touch k now).map = rest ++ [(k, Entry.ts now)]
    ∧ (m.touch k now).map.length = m.maxSize
    ∧ mget k0 (m.touch k now).map = none
    ∧ mget k (m.touch k now).map = some (Entry.ts now)
    ∧ (m2.touch k2 t).map.length ≤ m2.maxSize := by
  rw [hshape] at hnew
  have hk0k : ¬ (k0 = k) := by
    intro h
    simp [mget, h] at hnew
  have hkrest : mget k rest = none := by
    simpa [mget, hk0k] using hnew
  have hcap : m.maxSize ≤ ((k0, v0) :: rest : List (K × Entry)).length := by
    rw [← hshape]
    exact le_of_eq hfull.symm
  have hmap : (m.touch k now).map = rest ++ [(k, Entry.ts now)] := by
    simp only [CooldownMap.touch, hshape]
    rw [if_pos ⟨hmax, hcap⟩]
    rw [show mdel k0 ((k0, v0) :: rest) = rest from by simp [mdel]]
    exact mset_of_mget_none k _ rest hkrest
  refine ⟨hmap, ?_, ?_, ?_, ?_⟩
  · rw [hmap]
    have : m.map.length = rest.length + 1 := by rw [hshape]; rfl
    simp only [List.length_append, List.length_singleton]
    omega
  · have hkk0 : ¬ (k = k0) := fun h => hk0k h.symm
    rw [hmap, mget_append_of_none k0 rest _ hnodup]
    simp [mget, hkk0]
  · rw [hmap, mget_append_of_none k rest _ hkrest]
    simp [mget]
  · by_cases hc : m2.maxSize ≤ m2.map.length
    · have heq : m2.map.length = m2.maxSize := le_antisymm hble hc
      cases hm2 : m2.map with
      | nil =>
          rw [hm2] at heq
          simp at heq
          exact absurd heq.symm hb0
      | cons p tl =>
          rw [hm2] at hc heq
          simp only [CooldownMap.touch, hm2]
          rw [if_pos ⟨hb0, hc⟩, mdel_cons_self]
          have := length_mset_le k2 (Entry.ts t) tl
          simp only [List.length_cons] at heq
          omega
    · simp only [CooldownMap.touch]
      rw [if_neg (by tauto)]
      have := length_mset_le k2 (Entry.ts t) m2.map
      omega

/-- Witness for C2 (amended) at a two-entry map with `maxSize = 2`. -/
theorem claim2_touch_eviction_witness :
    ((CooldownMap.mk [((10 : Int), Entry.ts 0), (20, Entry.ts 1)] 60000 2).touch 30 5).map
        = [(20, Entry.ts 1)] ++ [(30, Entry.ts 5)]
    ∧ ((CooldownMap.mk [((10 : Int), Entry.ts 0), (20, Entry.ts 1)] 60000 2).touch 30 5).map.length
        = (CooldownMap.mk [((10 : Int), Entry.ts 0), (20, Entry.ts 1)] 60000 2).maxSize
    ∧ mget 10 ((CooldownMap.mk [((10 : Int), Entry.ts 0), (20, Entry.ts 1)] 60000 2).touch 30 5).map
        = none
    ∧ mget 30 ((CooldownMap.mk [((10 : Int), Entry.ts 0), (20, Entry.ts 1)] 60000 2).touch 30 5).map
        = some (Entry.ts 5)
    ∧ ((CooldownMap.mk ([] : List (Int × Entry)) 1000 3).touch 9 0).map.length
        ≤ (CooldownMap.mk ([] : List (Int × Entry)) 1000 3).maxSize :=
  claim2_touch_eviction
    (CooldownMap.mk [((10 : Int), Entry.ts 0), (20, Entry.ts 1)] 60000 2)
    30 10 (Entry.ts 0) [(20, Entry.ts 1)] 5
    (CooldownMap.mk ([] : List (Int × Entry)) 1000 3) 9 0
    rfl rfl (by decide) (by decide) (by decide) (by decide) (by decide)

/-- C2 counterexample: on a counter-mode map with `maxSize = 1`, two
`increment` calls on distinct keys leave two entries — `increment` never
evicts, so the claimed size invariant over touch/increment sequences fails. -/
theorem claim2_touch_eviction_cex :
    (((CooldownMap.mk ([] : List (Int × Entry)) 1000 1).increment 1 5 0).2.increment 2 5 0).2.map.length = 2
    ∧ (((CooldownMap.mk ([] : List (Int × Entry)) 1000 1).increment 1 5 0).2.increment 2 5 0).2.maxSize = 1 := by
  exact ⟨by decide, by decide⟩

/-- C4: in the main space, the gatekeeper passes machine accounts, admins,
senders without a record, and introduced senders through unchanged; a sender
with a pending record has the message deleted, with a reminder (and a
cooldown touch) only when the per-user reminder cooldown is not active. -/
theorem claim4_gatekeeper (g : Int) (admin : Int → Int → Bool)
    (lookupNone lookupIntro lookupPend : Int → Option UserRow)
    (cd cdLim cdFree : CooldownMap Int) (now : Int)
    (sBot sAdm s : Sender) (uIntro u : UserRow)
    (hBot : sBot.isBot = true)
    (hAdmBot : sAdm.isBot = false) (hAdm : admin g sAdm.id = true)
    (hsBot : s.isBot = false) (hsAdm : admin g s.id = false)
    (hNone : lookupNone s.id = none)
    (hIntro : lookupIntro s.id = some uIntro) (hUIntro : uIntro.introduced = true)
    (hPend : lookupPend s.id = some u) (hU : u.introduced = false)
    (hLim : cdLim.isLimited s.id now = true) (hFree : cdFree.isLimited s.id now = false) :
    gatekeep (some g) admin lookupNone cd ⟨g, some sBot⟩ now = (GkResult.passNext, cd)
    ∧ gatekeep (some g) admin lookupNone cd ⟨g, some sAdm⟩ now = (GkResult.passNext, cd)
    ∧ gatekeep (some g) admin lookupNone cd ⟨g, some s⟩ now = (GkResult.passNext, cd)
    ∧ gatekeep (some g) admin lookupIntro cd ⟨g, some s⟩ now = (GkResult.passNext, cd)
    ∧ gatekeep (some g) admin lookupPend cdLim ⟨g, some s⟩ now = (GkResult.deleteSilent, cdLim)
    ∧ gatekeep (some g) admin lookupPend cdFree ⟨g, some s⟩ now
        = (GkResult.deleteRemind, cdFree.touch s.id now) := by
  refine ⟨?_, ?_, ?_, ?_, ?_, ?_⟩
  · simp [gatekeep, hBot]
  · simp [gatekeep, hAdmBot, hAdm]
  · simp [gatekeep, hsBot, hsAdm, hNone]
  · simp [gatekeep, hsBot, hsAdm, hIntro, hUIntro]
  · simp [gatekeep, hsBot, hsAdm, hPend, hU, hLim]
  · simp [gatekeep, hsBot, hsAdm, hPend, hU, hFree]

theorem claim4_gatekeeper_witness :
    gatekeep (some (-100)) adminOnly2 noUserStore (CooldownMap.mk [] 30000 0)
        ⟨-100, some ⟨1, true⟩⟩ 10 = (GkResult.passNext, CooldownMap.mk [] 30000 0)
    ∧ gatekeep (some (-100)) adminOnly2 noUserStore (CooldownMap.mk [] 30000 0)
        ⟨-100, some ⟨2, false⟩⟩ 10 = (GkResult.passNext, CooldownMap.mk [] 30000 0)
    ∧ gatekeep (some (-100)) adminOnly2 noUserStore (CooldownMap.mk [] 30000 0)
        ⟨-100, some ⟨5, false⟩⟩ 10 = (GkResult.passNext, CooldownMap.mk [] 30000 0)
    ∧ gatekeep (some (-100)) adminOnly2 introStore (CooldownMap.mk [] 30000 0)
        ⟨-100, some ⟨5, false⟩⟩ 10 = (GkResult.passNext, CooldownMap.mk [] 30000 0)
    ∧ gatekeep (some (-100)) adminOnly2 pendingStore (CooldownMap.mk [(5, Entry.ts 0)] 30000 0)
        ⟨-100, some ⟨5, false⟩⟩ 10 = (GkResult.deleteSilent, CooldownMap.mk [(5, Entry.ts 0)] 30000 0)
    ∧ gatekeep (some (-100)) adminOnly2 pendingStore (CooldownMap.mk [] 30000 0)
        ⟨-100, some ⟨5, false⟩⟩ 10
        = (GkResult.deleteRemind, (CooldownMap.mk [] 30000 0).touch 5 10) :=
  claim4_gatekeeper (-100) adminOnly2 noUserStore introStore pendingStore
    (CooldownMap.mk [] 30000 0) (CooldownMap.mk [(5, Entry.ts 0)] 30000 0)
    (CooldownMap.mk [] 30000 0) 10 ⟨1, true⟩ ⟨2, false⟩ ⟨5, false⟩
    introducedRow pendingRow
    rfl rfl (by decide) rfl (by decide) rfl rfl rfl rfl rfl (by decide) (by decide)

/-- C6: `isAdmin` returns `false` at once when either id is not an integer,
without invoking the resolver or touching the cache; when the resolver call
fails it returns `false` without writing any cache entry, so a later call for
the same pair (with any resolver) invokes the resolver again. -/
theorem claim6_isAdmin_failure (resolver resolver2 : Int → Int → Option (List Char))
    (cache : AdminCacheT) (c u : Int) (j : JsNum) (now now2 : Int)
    (hmiss : ∀ e, mget (c, u) cache = some e → e.expires ≤ now)
    (hfail : resolver c u = none) (hord : now ≤ now2) :
    isAdmin resolver cache JsNum.nonInt j now = (false, cache, false)
    ∧ isAdmin resolver cache j JsNum.nonInt now = (false, cache, false)
    ∧ isAdmin resolver cache (JsNum.int c) (JsNum.int u) now = (false, cache, true)
    ∧ (isAdmin resolver2 cache (JsNum.int c) (JsNum.int u) now2).2.2 = true := by
  refine ⟨?_, ?_, ?_, ?_⟩
  · cases j <;> simp [isAdmin]
  · cases j <;> simp [isAdmin]
  · rcases hm : mget (c, u) cache with _ | e
    · simp [isAdmin, hm, resolveAndCache, hfail]
    · have hexp : ¬ now < e.expires := by
        have := hmiss e hm
        omega
      simp [isAdmin, hm, hexp, resolveAndCache, hfail]
  · rcases hm : mget (c, u) cache with _ | e
    · rcases hr2 : resolver2 c u with _ | st <;>
        simp [isAdmin, hm, resolveAndCache, hr2]
    · have hexp : ¬ now2 < e.expires := by
        have := hmiss e hm
        omega
      rcases hr2 : resolver2 c u with _ | st <;>
        simp [isAdmin, hm, hexp, resolveAndCache, hr2]

theorem claim6_isAdmin_failure_witness :
    isAdmin failingResolver [] JsNum.nonInt (JsNum.int 3) 0 = (false, [], false)
    ∧ isAdmin failingResolver [] (JsNum.int 3) JsNum.nonInt 0 = (false, [], false)
    ∧ isAdmin failingResolver [] (JsNum.int 1) (JsNum.int 2) 0 = (false, [], true)
    ∧ (isAdmin creatorResolver [] (JsNum.int 1) (JsNum.int 2) 5).2.2 = true :=
  claim6_isAdmin_failure failingResolver creatorResolver [] 1 2 (JsNum.int 3) 0 5
    (by intro e h; simp [mget] at h) rfl (by decide)

/-- Mass-join loop: every human member is recorded, no welcome is sent and
the welcome limiter is untouched. -/
theorem welcomeLoop_mass (chatId : Int) (now : Int) :
    ∀ (members : List Member) (cd : CooldownMap Int),
      welcomeLoop true chatId now members cd
        = ((members.filter isHuman).map upsertCallOf, 0, cd) := by
  intro members
  induction members with
  | nil => intro cd; simp [welcomeLoop]
  | cons m rest ih =>
      intro cd
      by_cases hb : m.is_bot
      · simp [welcomeLoop, hb, ih, isHuman, upsertCallOf]
      · simp [welcomeLoop, hb, ih, isHuman, upsertCallOf]

/-- C8: a join event in the main space whose member count exceeds the
mass-join threshold upserts every non-bot member and sends zero welcome
replies. -/
theorem claim8_mass_join (g : Int) (members : List Member)
    (cd : CooldownMap Int) (now : Int)
    (hmass : MAX_NEW_MEMBERS_PER_EVENT < members.length) :
    welcomeJoin (some g) g members cd now
      = ((members.filter isHuman).map upsertCallOf, 0, cd) := by
  have hd : decide (MAX_NEW_MEMBERS_PER_EVENT < members.length) = true :=
    decide_eq_true hmass
  simp [welcomeJoin, hd, welcomeLoop_mass]

theorem claim8_mass_join_witness :
    welcomeJoin (some (-100)) (-100) (List.replicate 11 sampleMember)
        (CooldownMap.mk [] 5000 0) 0
      = (((List.replicate 11 sampleMember).filter isHuman).map upsertCallOf, 0,
         CooldownMap.mk [] 5000 0) :=
  claim8_mass_join (-100) (List.replicate 11 sampleMember)
    (CooldownMap.mk [] 5000 0) 0 (by decide)

/-- C9 (amended): only `setSetting` is restricted to the allow-list — an
invalid key makes it fail with the invalid-key error (so no write happens);
`getSetting` performs no key validation and succeeds on every key, returning
the stored value or `null`. -/
theorem claim9_settings_allowlist (s s2 : SettingsTable) (key value k2 : List Char)
    (hk : VALID_SETTING_KEYS.contains key = false) :
    setSetting s key value = Except.error ("Invalid setting key: ".toList ++ key)
    ∧ getSetting s2 k2 = Except.ok (mget k2 s2) := by
  constructor
  · unfold setSetting
    rw [hk]
    simp
  · rfl

theorem claim9_settings_allowlist_witness :
    setSetting [] ("FOO".toList) ("1".toList)
        = Except.error ("Invalid setting key: ".toList ++ "FOO".toList)
    ∧ getSetting [(("MAIN_GROUP_ID".toList), ("-100".toList))] ("MAIN_GROUP_ID".toList)
        = Except.ok (mget ("MAIN_GROUP_ID".toList) [(("MAIN_GROUP_ID".toList), ("-100".toList))]) :=
  claim9_settings_allowlist [] [(("MAIN_GROUP_ID".toList), ("-100".toList))]
    ("FOO".toList) ("1".toList) ("MAIN_GROUP_ID".toList) (by rfl)

/-- C9 counterexample: `getSetting` on a key outside the allow-list does not
fail with an invalid-key error — it succeeds and returns `null`. -/
theorem claim9_settings_allowlist_cex :
    getSetting [] ("SOME_OTHER_KEY".toList) = Except.ok none := by
  rfl

/-- `find?` commutes with a `map` that preserves the predicate. -/
theorem find?_map_pres {α : Type} (p : α → Bool) (f : α → α)
    (hf : ∀ a, p (f a) = p a) :
    ∀ l : List α, (l.map f).find? p = (l.find? p).map f := by
  intro l
  induction l with
  | nil => simp
  | cons a l ih =>
      by_cases h : p a = true
      · simp [List.find?_cons_of_pos, h, hf]
      · have hfa : ¬ p (f a) = true := by rw [hf]; exact h
        simp only [List.map_cons]
        rw [List.find?_cons_of_neg _ hfa, List.find?_cons_of_neg _ h, ih]

/-- C10: re-upserting an existing user updates only `username`, `first_name`
and `updated_at`; `introduced`, `introduced_at`, `intro_msg_id` (and
`user_id`, `joined_at`) are left unchanged. -/
theorem claim10_upsert_frame (d : UsersTable) (uid : Int)
    (un fn : Option (List Char)) (now : Int) (r r2 : UserRow) (d2 : UsersTable)
    (hpos : 0 < uid) (hr : getUserRow d uid = some r)
    (hup : upsertUser d uid un fn now = Except.ok d2)
    (hrow : getUserRow d2 uid = some r2) :
    r2.introduced = r.introduced
    ∧ r2.introduced_at = r.introduced_at
    ∧ r2.intro_msg_id = r.intro_msg_id
    ∧ r2.joined_at = r.joined_at
    ∧ r2.user_id = r.user_id
    ∧ r2.username = truncOpt 64 un
    ∧ r2.first_name = truncOpt 128 fn
    ∧ r2.updated_at = now := by
  have hne : ¬ uid ≤ 0 := by omega
  have hsome : (getUserRow d uid).isSome = true := by rw [hr]; rfl
  simp only [upsertUser, if_neg hne, hsome, if_true, Except.ok.injEq] at hup
  have hru : decide (r.user_id = uid) = true := by
    have := List.find?_some hr
    exact this
  have hpres : ∀ a : UserRow,
      (decide ((if a.user_id = uid then
        { a with username := truncOpt 64 un, first_name := truncOpt 128 fn,
                 updated_at := now } else a).user_id = uid))
      = decide (a.user_id = uid) := by
    intro a
    by_cases h : a.user_id = uid
    · simp [h]
    · simp [h]
  rw [← hup] at hrow
  unfold getUserRow at hrow hr
  rw [find?_map_pres _ _ hpres d, hr] at hrow
  simp only [Option.map_some', Option.some.injEq] at hrow
  rw [if_pos (of_decide_eq_true hru)] at hrow
  subst hrow
  exact ⟨rfl, rfl, rfl, rfl, rfl, rfl, rfl, rfl⟩

theorem claim10_upsert_frame_witness :
    pendingRow.introduced = pendingRow.introduced
    ∧ pendingRow.introduced_at = pendingRow.introduced_at
    ∧ pendingRow.intro_msg_id = pendingRow.intro_msg_id
    ∧ pendingRow.joined_at = pendingRow.joined_at
    ∧ pendingRow.user_id = pendingRow.user_id
    ∧ pendingRow.username = truncOpt 64 none
    ∧ pendingRow.first_name = truncOpt 128 none
    ∧ pendingRow.updated_at = 0 := by
  refine claim10_upsert_frame [pendingRow] 5 none none 0 pendingRow pendingRow [pendingRow]
    (by decide) (by rfl) ?_ (by rfl)
  rfl

end Guardian
